import Mathlib

/-!
Verification of the unittest-parallel core (`src/unittest_parallel/main.py`)
against its design specification.

The Python source is shallowly embedded below: pure fragments become Lean
functions; the per-worker mutable state (the shared fail-fast event, the
temp-file name supply, and the calls made to the external coverage
collaborator) is threaded explicitly as a `WorkerState`; external
collaborators (the `unittest` text test runner, the `coverage` package, the
OS temp-file generator) appear as parameters or as event traces.
-/

namespace UnittestParallel

/-! ## Command-line arguments (main.py lines 27-70)

Only the fields the core logic reads are modelled.  `parse_coverage_args`
embeds the two `store_true` coverage flags of the `argparse` configuration:
a flag is true exactly when its option string occurs in the argument list.
`apply_branch_coverage` embeds lines 69-70:
`if args.coverage_branch: args.coverage = args.coverage_branch`. -/

structure CovArgs where
  coverage : Bool
  coverage_branch : Bool
deriving Repr, DecidableEq

def parse_coverage_args (argv : List String) : CovArgs :=
  { coverage := argv.contains "--coverage"
    coverage_branch := argv.contains "--coverage-branch" }

def apply_branch_coverage (a : CovArgs) : CovArgs :=
  if a.coverage_branch then { a with coverage := a.coverage_branch } else a

/-- Run configuration forwarded to workers (the fields of `args` that
`ParallelTestManager.run_tests` reads). -/
structure Args where
  verbose : Nat
  failfast : Bool
  buffer : Bool
  coverage : Bool
deriving Repr, DecidableEq

/-! ## Pool sizing (main.py lines 72-74 and 93)

```
process_count = max(0, args.jobs)
if process_count == 0:
    process_count = multiprocessing.cpu_count()
...
process_count = max(1, min(len(test_suites), process_count))
```
`jobs` is an `int` (possibly negative); `cpu_count` and `num_suites` are
the host CPU count and `len(test_suites)`. -/

def effective_process_count (jobs : Int) (cpu_count : Nat) (num_suites : Nat) : Nat :=
  let p0 : Int := max 0 jobs
  let p1 : Nat := if p0 = 0 then cpu_count else p0.toNat
  max 1 (min num_suites p1)

/-! ## Result aggregation (main.py lines 112-125)

`UnitResult` is the 6-component value a worker invocation returns
(`run_tests` returns `[0, [], [], 0, 0, 0]` on the fail-fast path and the
6-tuple `(testsRun, errors, failures, len(skipped), len(expectedFailures),
len(unexpectedSuccesses))` otherwise; both are consumed positionally by the
aggregation loop, so one record type embeds both).  The `skipped`,
`expected_failures` and `unexpected_successes` components are the lengths
of the runner's corresponding lists. -/

structure UnitResult where
  tests_run : Nat
  errors : List String
  failures : List String
  skipped : Nat
  expected_failures : Nat
  unexpected_successes : Nat
deriving Repr, DecidableEq

def zeroUnitResult : UnitResult :=
  { tests_run := 0, errors := [], failures := [], skipped := 0
    expected_failures := 0, unexpected_successes := 0 }

structure AggregateReport where
  tests_run : Nat
  errors : List String
  failures : List String
  skipped : Nat
  expected_failures : Nat
  unexpected_successes : Nat
deriving Repr, DecidableEq

/-- One iteration of the aggregation loop of `main` (lines 118-124):
`tests_run += result[0]; errors.extend(result[1]); failures.extend(result[2]);
skipped += result[3]; expected_failures += result[4];
unexpected_successes += result[5]`. -/
def aggregate_step (acc : AggregateReport) (r : UnitResult) : AggregateReport :=
  { tests_run := acc.tests_run + r.tests_run
    errors := acc.errors ++ r.errors
    failures := acc.failures ++ r.failures
    skipped := acc.skipped + r.skipped
    expected_failures := acc.expected_failures + r.expected_failures
    unexpected_successes := acc.unexpected_successes + r.unexpected_successes }

/-- The aggregation loop of `main` (lines 112-124): a left fold over the
pool's result list starting from all-zero totals, summing counters and
extending the error/failure lists. -/
def aggregate (results : List UnitResult) : AggregateReport :=
  results.foldl aggregate_step
    { tests_run := 0, errors := [], failures := [], skipped := 0
      expected_failures := 0, unexpected_successes := 0 }

/-- Line 125: `is_success = not(errors or failures or unexpected_successes)`
(Python truthiness: a list is truthy iff nonempty, an int iff nonzero). -/
def is_success (a : AggregateReport) : Bool :=
  !(!a.errors.isEmpty || !a.failures.isEmpty || a.unexpected_successes != 0)

/-- Lines 156-158: on the non-coverage path the process exits with
`len(errors) + len(failures) + unexpected_successes` when the run failed,
and falls through to a normal return (exit status 0) when it succeeded. -/
def exit_status (a : AggregateReport) : Nat :=
  if is_success a then 0
  else a.errors.length + a.failures.length + a.unexpected_successes

/-! ## The discovered suite tree and the partitioners (main.py lines 220-243)

`unittest.TestLoader.discover` returns an arbitrarily nested
`unittest.TestSuite`; the nodes are suites (groups, iterable over their
children) and `unittest.TestCase` leaves.  Embedded as a tagged tree.
Discovery always returns a suite (group) at the root; the partitioners are
only ever applied to group nodes (`_iter_class_suites` recurses only into
children of a group none of whose direct children is a `TestCase`, so it
too only ever sees group nodes below the root). -/

inductive TestSuite where
  | case (name : String)
  | suite (children : List TestSuite)
deriving Repr

/-- `isinstance(suite, unittest.TestCase)` -/
def isCase : TestSuite → Bool
  | .case _ => true
  | .suite _ => false

mutual

/-- `TestSuite.countTestCases` / `TestCase.countTestCases` of the external
`unittest` collaborator: a suite counts the sum over its children, a test
case counts 1. -/
def countTestCases : TestSuite → Nat
  | .case _ => 1
  | .suite cs => countTestCasesList cs

def countTestCasesList : List TestSuite → Nat
  | [] => 0
  | s :: ss => countTestCases s + countTestCasesList ss

end

mutual

/-- The leaves (atomic runnable test cases) of a tree, in depth-first
discovery order.  This is the analysis notion the partition properties are
stated with. -/
def leaves : TestSuite → List TestSuite
  | .case n => [.case n]
  | .suite cs => leavesList cs

def leavesList : List TestSuite → List TestSuite
  | [] => []
  | s :: ss => leaves s ++ leavesList ss

end

mutual

/-- `_iter_test_cases` (lines 238-243): depth-first, every `TestCase` leaf
is its own unit. -/
def iter_test_cases : TestSuite → List TestSuite
  | .case n => [.case n]
  | .suite cs => iter_test_cases_list cs

def iter_test_cases_list : List TestSuite → List TestSuite
  | [] => []
  | s :: ss => iter_test_cases s ++ iter_test_cases_list ss

end

mutual

/-- `_iter_class_suites` (lines 228-234): a group whose direct children
include at least one `TestCase` is yielded whole; otherwise recurse into
the children.  The Python function is only ever applied to group nodes (a
bare `TestCase` is not iterable); the `case` branch here mirrors the
`TestCase` branch of `_iter_test_cases` and is unreachable from any group
root, since recursion only happens when no direct child is a case. -/
def iter_class_suites : TestSuite → List TestSuite
  | .case n => [.case n]
  | .suite cs =>
    if cs.any isCase then [.suite cs] else iter_class_suites_list cs

def iter_class_suites_list : List TestSuite → List TestSuite
  | [] => []
  | s :: ss => iter_class_suites s ++ iter_class_suites_list ss

end

/-- `_iter_module_suites` (lines 220-224): the direct children of the
discovery root with a nonzero test-case count. -/
def iter_module_suites (children : List TestSuite) : List TestSuite :=
  children.filter (fun s => countTestCases s != 0)

/-! ## The worker execution unit (`ParallelTestManager.run_tests`, lines 253-281)

External collaborators are made explicit:
* the `unittest.TextTestRunner(...).run` call is a parameter
  `runner : RunnerConfig → TestSuite → Except RunError RunnerResult`
  (`.error` embeds the unit raising an unexpected exception out of `run`);
* the `coverage` package and the OS temp-file generator appear as a trace
  of `CovEvent`s and a fresh-name counter in `WorkerState`;
* the shared `manager.Event()` fail-fast flag is the `failfast : Bool`
  field of `WorkerState` (initially false, as created by
  `ParallelTestManager.__init__`). -/

/-- The options `run_tests` forwards to `unittest.TextTestRunner`
(lines 260-266). -/
structure RunnerConfig where
  verbosity : Nat
  failfast : Bool
  buffer : Bool
deriving Repr, DecidableEq

/-- A raw error/failure record of the runner: `error[0]` rendered through
`result.getDescription` (external `unittest` rendering) plus the traceback
text `error[1]`. -/
structure RawError where
  description : String
  traceback : String
deriving Repr, DecidableEq

/-- What `unittest.TextTestRunner.run` returns, as read by `run_tests`:
`testsRun`, the raw `errors`/`failures` lists, the lengths of the
`skipped`/`expectedFailures`/`unexpectedSuccesses` lists, and `shouldStop`. -/
structure RunnerResult where
  testsRun : Nat
  errors : List RawError
  failures : List RawError
  skipped : Nat
  expectedFailures : Nat
  unexpectedSuccesses : Nat
  shouldStop : Bool
deriving Repr, DecidableEq

/-- An unexpected exception escaping the unit run (spec §7, case 3). -/
structure RunError where
  message : String
deriving Repr, DecidableEq

/-- `unittest.TextTestResult.separator1` -/
def separator1 : String := String.mk (List.replicate 70 '=')

/-- `unittest.TextTestResult.separator2` -/
def separator2 : String := String.mk (List.replicate 70 '-')

/-- `ParallelTestManager._format_error` (lines 283-290). -/
def format_error (e : RawError) : String :=
  String.intercalate "\n" [separator1, e.description, separator2, e.traceback]

/-- A call made to the external coverage collaborator, tagged with the
coverage data-file name it concerns (`cov.save()` persists to the
`data_file` the `Coverage` object was created with). -/
inductive CovEvent where
  | start (dataFile : Nat)
  | stop
  | save (dataFile : Nat)
deriving Repr, DecidableEq

/-- The data-file names appearing in a coverage event trace. -/
def covNames (events : List CovEvent) : List Nat :=
  events.filterMap fun e =>
    match e with
    | .start f => some f
    | .stop => none
    | .save f => some f

/-- The state of `multiprocessing.Manager().Event()` as created by
`ParallelTestManager.__init__` (line 251): unset. -/
def eventInit : Bool := false

/-- `Event.set()` (line 271): unconditionally moves the flag to `true`,
whatever its prior state — hence idempotent and safe under any number of
setters. -/
def eventSet (_ : Bool) : Bool := true

/-- `Event.is_set()` (line 255): reads the flag. -/
def eventIsSet (b : Bool) : Bool := b

/-- Worker-visible mutable state: the shared fail-fast event, the OS
temp-file fresh-name supply (`tempfile.NamedTemporaryFile` names, embedded
as a counter), and the trace of coverage-collaborator calls. -/
structure WorkerState where
  failfast : Bool
  nextTempName : Nat
  covEvents : List CovEvent
deriving Repr, DecidableEq

/-- The `_coverage` context manager (lines 186-217).  With coverage
enabled: obtain a fresh data-file name, create the `Coverage` object on
it, `start()`, run the body, and in a `finally` block `stop()` and
`save()` — so stop/save happen on every exit path, including when the body
raises (the body's `Except.error` outcome).  With coverage disabled the
body runs with no coverage calls. -/
def withCoverage {α : Type} (covOn : Bool) (st : WorkerState)
    (body : WorkerState → Except RunError α × WorkerState) :
    Except RunError α × WorkerState :=
  if covOn then
    let f := st.nextTempName
    let st1 : WorkerState :=
      { st with
        nextTempName := st.nextTempName + 1
        covEvents := st.covEvents ++ [CovEvent.start f] }
    let res := body st1
    (res.1, { res.2 with covEvents := res.2.covEvents ++ [CovEvent.stop, CovEvent.save f] })
  else
    body st

/-- `ParallelTestManager.run_tests` (lines 253-281).  Fail-fast check
first; then, under `_coverage`, run the unit through the external runner,
set the shared fail-fast event if the runner reports `shouldStop`, and
return the 6-component unit result with errors/failures rendered by
`_format_error`.  An exception from the runner propagates (as `.error`)
after the coverage `finally` block runs. -/
def run_tests (args : Args)
    (runner : RunnerConfig → TestSuite → Except RunError RunnerResult)
    (st : WorkerState) (test_suite : TestSuite) :
    Except RunError UnitResult × WorkerState :=
  if eventIsSet st.failfast then
    (Except.ok zeroUnitResult, st)
  else
    withCoverage args.coverage st fun st1 =>
      match runner { verbosity := args.verbose, failfast := args.failfast
                     buffer := args.buffer } test_suite with
      | Except.error e => (Except.error e, st1)
      | Except.ok result =>
        let st2 :=
          if result.shouldStop then { st1 with failfast := eventSet st1.failfast } else st1
        (Except.ok
          { tests_run := result.testsRun
            errors := result.errors.map format_error
            failures := result.failures.map format_error
            skipped := result.skipped
            expected_failures := result.expectedFailures
            unexpected_successes := result.unexpectedSuccesses }, st2)

/-- `pool.map(test_manager.run_tests, test_suites)` (line 107): one worker
invocation per unit, results correlated back to input order.  An exception
in any invocation propagates out of `pool.map` (no result list is
produced); otherwise the result list has exactly one entry per unit, in
unit order. -/
def runSuites (args : Args)
    (runner : RunnerConfig → TestSuite → Except RunError RunnerResult) :
    WorkerState → List TestSuite → Except RunError (List UnitResult) × WorkerState
  | st, [] => (Except.ok [], st)
  | st, s :: ss =>
    match run_tests args runner st s with
    | (Except.error e, st1) => (Except.error e, st1)
    | (Except.ok r, st1) =>
      match runSuites args runner st1 ss with
      | (Except.ok rs, st2) => (Except.ok (r :: rs), st2)
      | (Except.error e, st2) => (Except.error e, st2)

/-! ## Helper lemmas -/

lemma foldl_aggregate_step (l : List UnitResult) (acc : AggregateReport) :
    l.foldl aggregate_step acc =
      { tests_run := acc.tests_run + (l.map UnitResult.tests_run).sum
        errors := acc.errors ++ (l.map UnitResult.errors).flatten
        failures := acc.failures ++ (l.map UnitResult.failures).flatten
        skipped := acc.skipped + (l.map UnitResult.skipped).sum
        expected_failures :=
          acc.expected_failures + (l.map UnitResult.expected_failures).sum
        unexpected_successes :=
          acc.unexpected_successes + (l.map UnitResult.unexpected_successes).sum } := by
  induction l generalizing acc with
  | nil => simp
  | cons r rs ih =>
    simp [aggregate_step, ih, Nat.add_assoc, List.append_assoc]

lemma aggregate_eq (l : List UnitResult) :
    aggregate l =
      { tests_run := (l.map UnitResult.tests_run).sum
        errors := (l.map UnitResult.errors).flatten
        failures := (l.map UnitResult.failures).flatten
        skipped := (l.map UnitResult.skipped).sum
        expected_failures := (l.map UnitResult.expected_failures).sum
        unexpected_successes := (l.map UnitResult.unexpected_successes).sum } := by
  simp [aggregate, foldl_aggregate_step]

/-! ## Claim theorems -/

/-- C1 counterexample: the claim says requesting `-1` workers with any
nonzero number of units yields exactly 1 worker; the code turns any
negative request into 0 (`max(0, args.jobs)`), which then means "use all
host cores": with 32 cores and 5 units it yields 5 workers, not 1. -/
theorem process_count_negative_cex :
    effective_process_count (-1) 32 5 = 5 ∧ effective_process_count (-1) 32 5 ≠ 1 := by
  constructor
  · rfl
  · intro h
    simp [effective_process_count] at h

/-- C1 (amended): with at least one unit and at least one host core,
requesting at least as many workers as units yields `len(units)` workers;
requesting 0 yields `min(cpu_count, len(units))`; and a negative request
is treated like 0 (all cores, clamped), not like 1. -/
theorem process_count_clamp (jobs : Int) (cpu_count num_suites : Nat)
    (hcpu : 1 ≤ cpu_count) (hn : 1 ≤ num_suites) :
    ((num_suites : Int) ≤ jobs →
      effective_process_count jobs cpu_count num_suites = num_suites) ∧
    (jobs = 0 →
      effective_process_count jobs cpu_count num_suites = min cpu_count num_suites) ∧
    (jobs < 0 →
      effective_process_count jobs cpu_count num_suites = min cpu_count num_suites) ∧
    (0 < jobs →
      effective_process_count jobs cpu_count num_suites =
        max 1 (min num_suites jobs.toNat)) := by
  simp only [effective_process_count]
  refine ⟨fun h => ?_, fun h => ?_, fun h => ?_, fun h => ?_⟩ <;> split <;> omega

/-- C1 witness -/
theorem process_count_clamp_witness :
    (1 ≤ 32 ∧ 1 ≤ 5 ∧ (-3 : Int) < 0) ∧
    effective_process_count (-3) 32 5 = min 32 5 :=
  ⟨by decide,
    (process_count_clamp (-3) 32 5 (by decide) (by decide)).2.2.1 (by decide)⟩

/-- C4: aggregation is a pure fold — the four counters are the sums of the
per-unit counters (hence invariant under any permutation of the result
list), and the aggregate error/failure lists are the concatenations of the
per-unit lists in unit order; in particular for `[rA, rB, rC]` the
aggregate errors are `rA.errors ++ rB.errors ++ rC.errors` verbatim. -/
theorem aggregate_pure_fold (l l' : List UnitResult) (rA rB rC : UnitResult)
    (h : l.Perm l') :
    ((aggregate l).tests_run = (l.map UnitResult.tests_run).sum ∧
     (aggregate l).skipped = (l.map UnitResult.skipped).sum ∧
     (aggregate l).expected_failures = (l.map UnitResult.expected_failures).sum ∧
     (aggregate l).unexpected_successes =
       (l.map UnitResult.unexpected_successes).sum) ∧
    ((aggregate l).errors = (l.map UnitResult.errors).flatten ∧
     (aggregate l).failures = (l.map UnitResult.failures).flatten) ∧
    ((aggregate l').tests_run = (aggregate l).tests_run ∧
     (aggregate l').skipped = (aggregate l).skipped ∧
     (aggregate l').expected_failures = (aggregate l).expected_failures ∧
     (aggregate l').unexpected_successes = (aggregate l).unexpected_successes) ∧
    ((aggregate [rA, rB, rC]).errors = rA.errors ++ rB.errors ++ rC.errors ∧
     (aggregate [rA, rB, rC]).failures = rA.failures ++ rB.failures ++ rC.failures) := by
  refine ⟨⟨?_, ?_, ?_, ?_⟩, ⟨?_, ?_⟩, ⟨?_, ?_, ?_, ?_⟩, ⟨?_, ?_⟩⟩ <;>
    simp [aggregate_eq] <;>
    exact ((h.map _).sum_eq).symm

/-- C4 witness -/
theorem aggregate_pure_fold_witness :
    ([(⟨1, ["e1"], [], 0, 0, 0⟩ : UnitResult), ⟨2, ["e2"], ["f1"], 1, 0, 1⟩].Perm
      [(⟨2, ["e2"], ["f1"], 1, 0, 1⟩ : UnitResult), ⟨1, ["e1"], [], 0, 0, 0⟩]) ∧
    (aggregate [(⟨1, ["e1"], [], 0, 0, 0⟩ : UnitResult),
        ⟨2, ["e2"], ["f1"], 1, 0, 1⟩]).errors =
      ([(⟨1, ["e1"], [], 0, 0, 0⟩ : UnitResult),
        ⟨2, ["e2"], ["f1"], 1, 0, 1⟩].map UnitResult.errors).flatten :=
  ⟨List.Perm.swap _ _ _,
    (aggregate_pure_fold
      [⟨1, ["e1"], [], 0, 0, 0⟩, ⟨2, ["e2"], ["f1"], 1, 0, 1⟩]
      [⟨2, ["e2"], ["f1"], 1, 0, 1⟩, ⟨1, ["e1"], [], 0, 0, 0⟩]
      zeroUnitResult zeroUnitResult zeroUnitResult
      (List.Perm.swap _ _ _)).2.1.1⟩

/-- C5: the aggregate verdict is `is_success = (errors empty ∧ failures
empty ∧ unexpected_successes = 0)`, and on the non-coverage path the exit
status equals `len(errors) + len(failures) + unexpected_successes`, which
is 0 exactly when the run succeeded. -/
theorem verdict_and_exit_status (results : List UnitResult) :
    (is_success (aggregate results) = true ↔
      ((aggregate results).errors = [] ∧ (aggregate results).failures = [] ∧
        (aggregate results).unexpected_successes = 0)) ∧
    exit_status (aggregate results) =
      (aggregate results).errors.length + (aggregate results).failures.length +
        (aggregate results).unexpected_successes ∧
    (exit_status (aggregate results) = 0 ↔ is_success (aggregate results) = true) := by
  rcases h : aggregate results with ⟨t, es, fs, sk, ef, us⟩
  refine ⟨?_, ?_, ?_⟩ <;>
    simp [is_success, exit_status, List.isEmpty_iff] <;>
    rcases es with _ | ⟨e, es⟩ <;> rcases fs with _ | ⟨f, fs⟩ <;>
      simp [List.isEmpty_iff] <;> omega

/-- C10: an argument list containing `--coverage-branch` but not
`--coverage` produces, after the `if args.coverage_branch:
args.coverage = args.coverage_branch` normalization, exactly the same
effective coverage arguments as if `--coverage` had also been passed — and
in particular coverage is enabled. -/
theorem branch_coverage_implies_coverage (argv : List String)
    (hb : argv.contains "--coverage-branch" = true)
    (_hc : argv.contains "--coverage" = false) :
    apply_branch_coverage (parse_coverage_args argv) =
      apply_branch_coverage (parse_coverage_args ("--coverage" :: argv)) ∧
    (apply_branch_coverage (parse_coverage_args argv)).coverage = true := by
  have hb' : "--coverage-branch" ∈ argv := by simpa using hb
  simp [parse_coverage_args, apply_branch_coverage, hb']

/-- C10 witness -/
theorem branch_coverage_implies_coverage_witness :
    (["--coverage-branch"].contains "--coverage-branch" = true ∧
      ["--coverage-branch"].contains "--coverage" = false) ∧
    (apply_branch_coverage (parse_coverage_args ["--coverage-branch"])).coverage = true :=
  ⟨by decide,
    (branch_coverage_implies_coverage ["--coverage-branch"] (by decide) (by decide)).2⟩

/-! ## Suite-tree lemmas -/

mutual

theorem countTestCases_eq_length_leaves :
    ∀ (t : TestSuite), countTestCases t = (leaves t).length
  | .case n => by simp [countTestCases, leaves]
  | .suite cs => by
    simpa [countTestCases, leaves] using countTestCasesList_eq_length_leavesList cs

theorem countTestCasesList_eq_length_leavesList :
    ∀ (cs : List TestSuite), countTestCasesList cs = (leavesList cs).length
  | [] => by simp [countTestCasesList, leavesList]
  | s :: ss => by
    simp [countTestCasesList, leavesList, countTestCases_eq_length_leaves s,
      countTestCasesList_eq_length_leavesList ss]

end

mutual

theorem leaves_all_case : ∀ (t : TestSuite), ∀ u ∈ leaves t, isCase u = true
  | .case n => by simp [leaves, isCase]
  | .suite cs => by simpa [leaves] using leavesList_all_case cs

theorem leavesList_all_case :
    ∀ (cs : List TestSuite), ∀ u ∈ leavesList cs, isCase u = true
  | [] => by simp [leavesList]
  | s :: ss => by
    intro u hu
    rcases List.mem_append.mp (by simpa [leavesList] using hu) with h | h
    · exact leaves_all_case s u h
    · exact leavesList_all_case ss u h

end

lemma leaves_of_isCase (u : TestSuite) (h : isCase u = true) : leaves u = [u] := by
  cases u with
  | case n => simp [leaves]
  | suite cs => simp [isCase] at h

lemma flatten_map_leaves_self (us : List TestSuite)
    (h : ∀ u ∈ us, isCase u = true) : (us.map leaves).flatten = us := by
  induction us with
  | nil => simp
  | cons s ss ih =>
    simp [leaves_of_isCase s (h s (by simp)), ih (fun u hu => h u (by simp [hu]))]

mutual

theorem iter_test_cases_eq_leaves : ∀ (t : TestSuite), iter_test_cases t = leaves t
  | .case n => rfl
  | .suite cs => by
    simpa [iter_test_cases, leaves] using iter_test_cases_list_eq_leavesList cs

theorem iter_test_cases_list_eq_leavesList :
    ∀ (cs : List TestSuite), iter_test_cases_list cs = leavesList cs
  | [] => rfl
  | s :: ss => by
    simp [iter_test_cases_list, leavesList, iter_test_cases_eq_leaves s,
      iter_test_cases_list_eq_leavesList ss]

end

mutual

theorem class_suites_cover :
    ∀ (t : TestSuite), ((iter_class_suites t).map leaves).flatten = leaves t
  | .case n => by simp [iter_class_suites, leaves]
  | .suite cs => by
    by_cases h : cs.any isCase
    · simp [iter_class_suites, h, leaves]
    · simpa [iter_class_suites, h, leaves] using class_suites_list_cover cs

theorem class_suites_list_cover :
    ∀ (cs : List TestSuite),
      ((iter_class_suites_list cs).map leaves).flatten = leavesList cs
  | [] => by simp [iter_class_suites_list, leavesList]
  | s :: ss => by
    simp [iter_class_suites_list, leavesList, class_suites_cover s,
      class_suites_list_cover ss]

end

lemma leavesList_length_pos (cs : List TestSuite) (h : cs.any isCase = true) :
    1 ≤ (leavesList cs).length := by
  induction cs with
  | nil => simp at h
  | cons s ss ih =>
    by_cases hs : isCase s = true
    · simp [leavesList, leaves_of_isCase s hs]
    · have h' : ss.any isCase = true := by
        rcases List.any_eq_true.mp h with ⟨u, hu, hcase⟩
        rcases List.mem_cons.mp hu with rfl | hu'
        · exact absurd hcase hs
        · exact List.any_eq_true.mpr ⟨u, hu', hcase⟩
      have := ih h'
      simp only [leavesList, List.length_append]
      omega

mutual

theorem class_suites_leaf_pos :
    ∀ (t : TestSuite), ∀ u ∈ iter_class_suites t, 1 ≤ (leaves u).length
  | .case n => by simp [iter_class_suites, leaves]
  | .suite cs => by
    by_cases h : cs.any isCase
    · intro u hu
      simp only [iter_class_suites, h, if_true, List.mem_singleton] at hu
      subst hu
      simpa [leaves] using leavesList_length_pos cs h
    · intro u hu
      simp only [iter_class_suites, h, if_false, Bool.false_eq_true] at hu
      exact class_suites_list_leaf_pos cs u hu

theorem class_suites_list_leaf_pos :
    ∀ (cs : List TestSuite), ∀ u ∈ iter_class_suites_list cs, 1 ≤ (leaves u).length
  | [] => by simp [iter_class_suites_list]
  | s :: ss => by
    intro u hu
    rcases List.mem_append.mp (by simpa [iter_class_suites_list] using hu) with h | h
    · exact class_suites_leaf_pos s u h
    · exact class_suites_list_leaf_pos ss u h

end

lemma length_le_flatten_length (us : List TestSuite)
    (h : ∀ u ∈ us, 1 ≤ (leaves u).length) :
    us.length ≤ ((us.map leaves).flatten).length := by
  induction us with
  | nil => simp
  | cons s ss ih =>
    have h1 := h s (by simp)
    have h2 := ih (fun u hu => h u (by simp [hu]))
    simp only [List.map_cons, List.flatten_cons, List.length_append, List.length_cons]
    omega

lemma module_suites_cover (cs : List TestSuite) :
    ((iter_module_suites cs).map leaves).flatten = leavesList cs := by
  induction cs with
  | nil => rfl
  | cons s ss ih =>
    simp only [iter_module_suites, List.filter_cons] at ih ⊢
    by_cases h : countTestCases s = 0
    · have hl : leaves s = [] :=
        List.length_eq_zero.mp (by rw [← countTestCases_eq_length_leaves]; exact h)
      simp [h, leavesList, hl, ih]
    · simp [h, leavesList, ih]

lemma module_suites_leaf_pos (cs : List TestSuite) :
    ∀ u ∈ iter_module_suites cs, 1 ≤ (leaves u).length := by
  intro u hu
  have hp := (List.mem_filter.mp hu).2
  have : countTestCases u ≠ 0 := by simpa using hp
  rw [countTestCases_eq_length_leaves] at this
  omega

/-- C6: for each granularity mode, the partition of a discovered tree
(discovery always returns a group at the root, with children `cs`) covers
every leaf exactly once — the concatenation of the units' leaf sequences
is the tree's leaf sequence — and produces at most as many units as there
are leaves. -/
theorem partition_covers_leaves (cs : List TestSuite) :
    (((iter_test_cases (TestSuite.suite cs)).map leaves).flatten =
        leaves (TestSuite.suite cs) ∧
      (iter_test_cases (TestSuite.suite cs)).length ≤
        (leaves (TestSuite.suite cs)).length) ∧
    (((iter_class_suites (TestSuite.suite cs)).map leaves).flatten =
        leaves (TestSuite.suite cs) ∧
      (iter_class_suites (TestSuite.suite cs)).length ≤
        (leaves (TestSuite.suite cs)).length) ∧
    (((iter_module_suites cs).map leaves).flatten = leaves (TestSuite.suite cs) ∧
      (iter_module_suites cs).length ≤ (leaves (TestSuite.suite cs)).length) := by
  refine ⟨⟨?_, ?_⟩, ⟨?_, ?_⟩, ⟨?_, ?_⟩⟩
  · rw [iter_test_cases_eq_leaves]
    exact flatten_map_leaves_self _ (leaves_all_case _)
  · rw [iter_test_cases_eq_leaves]
  · exact class_suites_cover _
  · calc (iter_class_suites (TestSuite.suite cs)).length
        ≤ (((iter_class_suites (TestSuite.suite cs)).map leaves).flatten).length :=
          length_le_flatten_length _ (class_suites_leaf_pos _)
      _ = (leaves (TestSuite.suite cs)).length := by rw [class_suites_cover]
  · simpa [leaves] using module_suites_cover cs
  · calc (iter_module_suites cs).length
        ≤ (((iter_module_suites cs).map leaves).flatten).length :=
          length_le_flatten_length _ (module_suites_leaf_pos cs)
      _ = (leaves (TestSuite.suite cs)).length := by
          simpa [leaves] using congrArg List.length (module_suites_cover cs)

/-- C7 counterexample: for the single-test group `suite [case "test_a"]`,
class-fixture granularity yields the wrapping group as the unit while
test-case granularity yields the bare test case, so the two partitions are
not equal as the claim states. -/
theorem class_fixture_single_cex :
    iter_class_suites (.suite [.case "test_a"]) ≠
      iter_test_cases (.suite [.case "test_a"]) := by
  simp [iter_class_suites, iter_test_cases, iter_test_cases_list, isCase]

/-- C7 (amended): in class-fixture granularity a group directly containing
at least one leaf is yielded as a single unit without splitting, even if
it also contains sub-groups; and for a single-test group the class-fixture
partition is a single unit covering exactly the same leaf sequence as the
test-case partition of that group (the wrapping group rather than the bare
test case). -/
theorem class_fixture_single (cs : List TestSuite) (n : String)
    (h : cs.any isCase = true) :
    iter_class_suites (.suite cs) = [.suite cs] ∧
    iter_class_suites (.suite [.case n]) = [.suite [.case n]] ∧
    ((iter_class_suites (.suite [.case n])).map leaves).flatten =
      ((iter_test_cases (.suite [.case n])).map leaves).flatten ∧
    (iter_class_suites (.suite [.case n])).length =
      (iter_test_cases (.suite [.case n])).length := by
  refine ⟨?_, ?_, ?_, ?_⟩
  · simp [iter_class_suites, h]
  · simp [iter_class_suites, isCase]
  · simp [iter_class_suites, iter_test_cases, iter_test_cases_list, isCase, leaves,
      leavesList]
  · simp [iter_class_suites, iter_test_cases, iter_test_cases_list, isCase]

/-- C7 witness -/
theorem class_fixture_single_witness :
    ([TestSuite.case "test_b", TestSuite.suite []].any isCase = true) ∧
    iter_class_suites (.suite [.case "test_b", .suite []]) =
      [.suite [.case "test_b", .suite []]] :=
  ⟨by simp [isCase],
    (class_fixture_single [.case "test_b", .suite []] "test_b"
      (by simp [isCase])).1⟩

/-! ## Worker lemmas -/

lemma run_tests_of_failfast (args : Args)
    (runner : RunnerConfig → TestSuite → Except RunError RunnerResult)
    (st : WorkerState) (suite : TestSuite) (h : st.failfast = true) :
    run_tests args runner st suite = (Except.ok zeroUnitResult, st) := by
  simp [run_tests, eventIsSet, h]

lemma runSuites_of_failfast (args : Args)
    (runner : RunnerConfig → TestSuite → Except RunError RunnerResult)
    (units : List TestSuite) (st : WorkerState) (h : st.failfast = true) :
    runSuites args runner st units =
      (Except.ok (units.map fun _ => zeroUnitResult), st) := by
  induction units with
  | nil => simp [runSuites]
  | cons s ss ih => simp [runSuites, run_tests_of_failfast args runner st s h, ih]

lemma runSuites_ok_length (args : Args)
    (runner : RunnerConfig → TestSuite → Except RunError RunnerResult) :
    ∀ (units : List TestSuite) (st : WorkerState) (rs : List UnitResult)
      (st' : WorkerState),
      runSuites args runner st units = (Except.ok rs, st') → rs.length = units.length := by
  intro units
  induction units with
  | nil =>
    intro st rs st' h
    simp only [runSuites, Prod.mk.injEq, Except.ok.injEq] at h
    simp [← h.1]
  | cons s ss ih =>
    intro st rs st' h
    simp only [runSuites] at h
    rcases h1 : run_tests args runner st s with ⟨r, st1⟩
    rcases r with e | r
    · rw [h1] at h
      dsimp only at h
      simp at h
    · rw [h1] at h
      dsimp only at h
      rcases h2 : runSuites args runner st1 ss with ⟨rr, st2⟩
      rcases rr with e | rr
      · rw [h2] at h
        dsimp only at h
        simp at h
      · rw [h2] at h
        dsimp only at h
        simp only [Prod.mk.injEq, Except.ok.injEq] at h
        simp [← h.1, ih st1 rr st2 h2]

/-- C2 counterexample: two worker invocations whose runner outcomes are
identical except for `shouldStop` (one true, one false) return exactly the
same unit-result value, so the returned record cannot carry a
`should_stop` field; the runner's `shouldStop` lands in the shared
fail-fast flag instead. -/
theorem unit_result_no_should_stop_field_cex :
    (run_tests { verbose := 1, failfast := true, buffer := false, coverage := false }
        (fun _ _ => Except.ok
          { testsRun := 1, errors := [], failures := [⟨"test_c (m.C)", "Traceback"⟩],
            skipped := 0, expectedFailures := 0, unexpectedSuccesses := 0,
            shouldStop := true })
        { failfast := false, nextTempName := 0, covEvents := [] } (.case "t")).1 =
      (run_tests { verbose := 1, failfast := true, buffer := false, coverage := false }
        (fun _ _ => Except.ok
          { testsRun := 1, errors := [], failures := [⟨"test_c (m.C)", "Traceback"⟩],
            skipped := 0, expectedFailures := 0, unexpectedSuccesses := 0,
            shouldStop := false })
        { failfast := false, nextTempName := 0, covEvents := [] } (.case "t")).1 ∧
    (run_tests { verbose := 1, failfast := true, buffer := false, coverage := false }
        (fun _ _ => Except.ok
          { testsRun := 1, errors := [], failures := [⟨"test_c (m.C)", "Traceback"⟩],
            skipped := 0, expectedFailures := 0, unexpectedSuccesses := 0,
            shouldStop := true })
        { failfast := false, nextTempName := 0, covEvents := [] } (.case "t")).2.failfast
      = true ∧
    (run_tests { verbose := 1, failfast := true, buffer := false, coverage := false }
        (fun _ _ => Except.ok
          { testsRun := 1, errors := [], failures := [⟨"test_c (m.C)", "Traceback"⟩],
            skipped := 0, expectedFailures := 0, unexpectedSuccesses := 0,
            shouldStop := false })
        { failfast := false, nextTempName := 0, covEvents := [] } (.case "t")).2.failfast
      = false :=
  ⟨rfl, rfl, rfl⟩

/-- C2 (amended): a worker invocation that runs its unit returns exactly
the six components `(tests_run, formatted errors, formatted failures,
skipped, expected_failures, unexpected_successes)` of the runner's result
— there is no `should_stop` component; the runner's `shouldStop` is
propagated through the shared fail-fast signal, whose post-invocation
value it becomes. -/
theorem unit_result_six_fields (args : Args)
    (runner : RunnerConfig → TestSuite → Except RunError RunnerResult)
    (st : WorkerState) (suite : TestSuite) (res : RunnerResult)
    (hff : st.failfast = false)
    (hrun : runner { verbosity := args.verbose, failfast := args.failfast
                     buffer := args.buffer } suite = Except.ok res) :
    (run_tests args runner st suite).1 = Except.ok
      { tests_run := res.testsRun
        errors := res.errors.map format_error
        failures := res.failures.map format_error
        skipped := res.skipped
        expected_failures := res.expectedFailures
        unexpected_successes := res.unexpectedSuccesses } ∧
    (run_tests args runner st suite).2.failfast = res.shouldStop := by
  by_cases hcov : args.coverage <;>
    cases hstop : res.shouldStop <;>
      simp [run_tests, withCoverage, eventIsSet, eventSet, hff, hrun, hcov, hstop]

/-- C2 witness -/
theorem unit_result_six_fields_witness :
    ((({ failfast := false, nextTempName := 0, covEvents := [] } : WorkerState).failfast
        = false) ∧
      ((fun _ _ => Except.ok
          ({ testsRun := 3, errors := [⟨"d", "tb"⟩], failures := [], skipped := 1,
             expectedFailures := 0, unexpectedSuccesses := 2, shouldStop := true } :
            RunnerResult)) :
          RunnerConfig → TestSuite → Except RunError RunnerResult)
          { verbosity := (1 : Nat), failfast := false, buffer := false } (.case "t") =
        Except.ok
          { testsRun := 3, errors := [⟨"d", "tb"⟩], failures := [], skipped := 1,
            expectedFailures := 0, unexpectedSuccesses := 2, shouldStop := true }) ∧
    (run_tests { verbose := 1, failfast := false, buffer := false, coverage := true }
        (fun _ _ => Except.ok
          { testsRun := 3, errors := [⟨"d", "tb"⟩], failures := [], skipped := 1,
            expectedFailures := 0, unexpectedSuccesses := 2, shouldStop := true })
        { failfast := false, nextTempName := 0, covEvents := [] } (.case "t")).2.failfast
      = true :=
  ⟨⟨rfl, rfl⟩, by
    have h := (unit_result_six_fields
      { verbose := 1, failfast := false, buffer := false, coverage := true }
      (fun _ _ => Except.ok
        { testsRun := 3, errors := [⟨"d", "tb"⟩], failures := [], skipped := 1,
          expectedFailures := 0, unexpectedSuccesses := 2, shouldStop := true })
      { failfast := false, nextTempName := 0, covEvents := [] } (.case "t")
      { testsRun := 3, errors := [⟨"d", "tb"⟩], failures := [], skipped := 1,
        expectedFailures := 0, unexpectedSuccesses := 2, shouldStop := true }
      rfl rfl).2
    simpa using h⟩

/-- C3: a worker invocation that begins with the fail-fast signal set
returns the all-zero unit result, leaves the worker state (in particular
the coverage-call trace and the temp-name supply) untouched, behaves
identically for any two runners (the runner is not invoked), and such a
fast-failed unit is still represented in the pool's output sequence: a
successful `pool.map` yields exactly one result per input unit. -/
theorem failfast_short_circuit (args : Args)
    (runner runner2 : RunnerConfig → TestSuite → Except RunError RunnerResult)
    (st : WorkerState) (suite : TestSuite) (units : List TestSuite)
    (rs : List UnitResult) (st' : WorkerState)
    (hset : st.failfast = true) :
    run_tests args runner st suite = (Except.ok zeroUnitResult, st) ∧
    run_tests args runner2 st suite = run_tests args runner st suite ∧
    (run_tests args runner st suite).2.covEvents = st.covEvents ∧
    (runSuites args runner st units = (Except.ok rs, st') →
      rs.length = units.length) := by
  refine ⟨run_tests_of_failfast args runner st suite hset, ?_, ?_, ?_⟩
  · rw [run_tests_of_failfast args runner st suite hset,
      run_tests_of_failfast args runner2 st suite hset]
  · rw [run_tests_of_failfast args runner st suite hset]
  · exact runSuites_ok_length args runner units st rs st'

/-- C3 witness -/
theorem failfast_short_circuit_witness :
    (({ failfast := true, nextTempName := 4, covEvents := [] } : WorkerState).failfast
      = true) ∧
    run_tests { verbose := 1, failfast := false, buffer := false, coverage := true }
        (fun _ _ => Except.error ⟨"not invoked"⟩)
        { failfast := true, nextTempName := 4, covEvents := [] } (.case "t") =
      (Except.ok zeroUnitResult,
        { failfast := true, nextTempName := 4, covEvents := [] }) :=
  ⟨rfl,
    (failfast_short_circuit
      { verbose := 1, failfast := false, buffer := false, coverage := true }
      (fun _ _ => Except.error ⟨"not invoked"⟩) (fun _ _ => Except.error ⟨"x"⟩)
      { failfast := true, nextTempName := 4, covEvents := [] } (.case "t") [] []
      { failfast := true, nextTempName := 4, covEvents := [] } rfl).1⟩

/-- C8: the fail-fast signal is a monotone two-state flag: it is created
unset, `set()` is idempotent and always yields the set state whatever the
prior state or number of setters, no worker invocation (nor a whole run)
ever moves a set flag back to unset, and a worker invocation whose runner
reports `shouldStop` leaves the flag set after its unit completes. -/
theorem failfast_signal_monotone (args : Args)
    (runner : RunnerConfig → TestSuite → Except RunError RunnerResult)
    (st : WorkerState) (suite : TestSuite) (units : List TestSuite)
    (res : RunnerResult) :
    (eventInit = false ∧ eventIsSet eventInit = false) ∧
    (∀ b, eventSet (eventSet b) = eventSet b ∧ eventSet b = true) ∧
    (st.failfast = true → (run_tests args runner st suite).2.failfast = true) ∧
    (st.failfast = true → (runSuites args runner st units).2.failfast = true) ∧
    (st.failfast = false →
      runner { verbosity := args.verbose, failfast := args.failfast
               buffer := args.buffer } suite = Except.ok res →
      res.shouldStop = true →
      (run_tests args runner st suite).2.failfast = true) := by
  refine ⟨⟨rfl, rfl⟩, fun b => ⟨rfl, rfl⟩, fun h => ?_, fun h => ?_, ?_⟩
  · rw [run_tests_of_failfast args runner st suite h]
    exact h
  · rw [runSuites_of_failfast args runner units st h]
    exact h
  · intro hff hrun hstop
    exact (unit_result_six_fields args runner st suite res hff hrun).2.trans hstop

/-- C8 witness -/
theorem failfast_signal_monotone_witness :
    (({ failfast := true, nextTempName := 0, covEvents := [] } : WorkerState).failfast
      = true) ∧
    (run_tests { verbose := 1, failfast := false, buffer := false, coverage := false }
        (fun _ _ => Except.ok
          { testsRun := 0, errors := [], failures := [], skipped := 0,
            expectedFailures := 0, unexpectedSuccesses := 0, shouldStop := false })
        { failfast := true, nextTempName := 0, covEvents := [] }
        (.case "t")).2.failfast = true :=
  ⟨rfl,
    (failfast_signal_monotone
      { verbose := 1, failfast := false, buffer := false, coverage := false }
      (fun _ _ => Except.ok
        { testsRun := 0, errors := [], failures := [], skipped := 0,
          expectedFailures := 0, unexpectedSuccesses := 0, shouldStop := false })
      { failfast := true, nextTempName := 0, covEvents := [] } (.case "t") []
      { testsRun := 0, errors := [], failures := [], skipped := 0,
        expectedFailures := 0, unexpectedSuccesses := 0, shouldStop := false }).2.2.1
      rfl⟩

/-- C9: with coverage enabled, a worker invocation that passes the
fail-fast check starts measurement on a fresh data-file name taken from
the temp-name supply and, on every exit path — whether the runner returns
or raises — stops measurement and saves to that same file; the name is
distinct from every name used before (given the supply invariant), and the
invariant is preserved. -/
theorem coverage_fresh_and_released (args : Args)
    (runner : RunnerConfig → TestSuite → Except RunError RunnerResult)
    (st : WorkerState) (suite : TestSuite)
    (hcov : args.coverage = true) (hff : st.failfast = false) :
    (run_tests args runner st suite).2.covEvents =
      st.covEvents ++ [CovEvent.start st.nextTempName, CovEvent.stop,
        CovEvent.save st.nextTempName] ∧
    (run_tests args runner st suite).2.nextTempName = st.nextTempName + 1 ∧
    ((∀ m ∈ covNames st.covEvents, m < st.nextTempName) →
      st.nextTempName ∉ covNames st.covEvents ∧
      ∀ m ∈ covNames (run_tests args runner st suite).2.covEvents,
        m < (run_tests args runner st suite).2.nextTempName) := by
  have key : (run_tests args runner st suite).2.covEvents =
      st.covEvents ++ [CovEvent.start st.nextTempName, CovEvent.stop,
        CovEvent.save st.nextTempName] ∧
      (run_tests args runner st suite).2.nextTempName = st.nextTempName + 1 := by
    cases hr : runner { verbosity := args.verbose, failfast := args.failfast
                        buffer := args.buffer } suite with
    | error e => simp [run_tests, withCoverage, eventIsSet, hff, hcov, hr]
    | ok res =>
      cases hstop : res.shouldStop <;>
        simp [run_tests, withCoverage, eventIsSet, eventSet, hff, hcov, hr, hstop]
  refine ⟨key.1, key.2, fun hinv => ⟨?_, ?_⟩⟩
  · intro hmem
    exact absurd (hinv _ hmem) (by omega)
  · intro m hm
    rw [key.1] at hm
    rw [key.2]
    simp only [covNames, List.filterMap_append, List.mem_append] at hm
    rcases hm with hm | hm
    · have := hinv m (by simpa [covNames] using hm)
      omega
    · simp [List.filterMap] at hm
      omega

/-- C9 witness -/
theorem coverage_fresh_and_released_witness :
    (({ verbose := 1, failfast := false, buffer := false, coverage := true } :
        Args).coverage = true ∧
      ({ failfast := false, nextTempName := 5,
         covEvents := [CovEvent.start 2, CovEvent.stop, CovEvent.save 2] } :
        WorkerState).failfast = false) ∧
    (run_tests { verbose := 1, failfast := false, buffer := false, coverage := true }
        (fun _ _ => Except.error ⟨"crash"⟩)
        { failfast := false, nextTempName := 5,
          covEvents := [CovEvent.start 2, CovEvent.stop, CovEvent.save 2] }
        (.case "t")).2.covEvents =
      [CovEvent.start 2, CovEvent.stop, CovEvent.save 2] ++
        [CovEvent.start 5, CovEvent.stop, CovEvent.save 5] :=
  ⟨⟨rfl, rfl⟩,
    (coverage_fresh_and_released
      { verbose := 1, failfast := false, buffer := false, coverage := true }
      (fun _ _ => Except.error ⟨"crash"⟩)
      { failfast := false, nextTempName := 5,
        covEvents := [CovEvent.start 2, CovEvent.stop, CovEvent.save 2] }
      (.case "t") rfl rfl).1⟩

end UnittestParallel
